import Mathlib

/-!
Shallow embedding of the rock-paper-scissors Markov-chain engine
(src/main.py): the state enumeration, the 9x9 weight matrix, the
reinforcement update, the decision rule and the round evaluator.
Floating-point weights are modelled as exact rationals; the Python
`KeyError` raised by a failed dict lookup is modelled as `none`.
-/

namespace RPS

/-- The 9x9 transition-weight table: one row per previous history state,
one column per observed next state. -/
abbrev Matrix9 := Fin 9 → Fin 9 → ℚ

/-- The `States` enum of the source: the `EM` sentinel (value -1, used only
before the first round) plus the nine concrete states VR..TS whose enum
value 0..8 is their matrix coordinate. -/
inductive States where
  | EM : States
  | mk : Fin 9 → States
  deriving DecidableEq

/-- `what_beats_what_dict = {0: 2, 1: 0, 2: 1}`: move `k` beats move
`what_beats_what_dict[k]`; a key outside the dict raises (modelled `none`). -/
def what_beats_what_dict : Int → Option Int := fun k =>
  if k = 0 then some 2 else if k = 1 then some 0 else if k = 2 then some 1 else none

def decrease_value : ℚ := 1/100

def increase_value : ℚ := 1/10

def upper_limit : ℚ := 1 - increase_value + decrease_value

def bottom_limit : ℚ := 0 + decrease_value

/-- The initial matrix literal of the source: all 81 cells hold 0.11. -/
def transition_matrix : Matrix9 := fun _ _ => 11/100

/-- `counter_plays = {2: 0, 1: 2, 0: 1}`: the move returned against each
predicted move. -/
def counter_plays : Fin 3 → Fin 3 := fun p =>
  if p = 2 then 0 else if p = 1 then 2 else 1

/-- `numpy.argmax` on a 3-vector: the first (lowest) index holding the
maximum value. -/
def argmax3 (d0 d1 d2 : ℚ) : Fin 3 :=
  if d1 > d0 then (if d2 > d1 then 2 else 1) else (if d2 > d0 then 2 else 0)

/-- `computer_move` of the source. The `EM` branch draws a uniformly random
move; the draw is injected as the `rand` argument. Otherwise the row of the
previous state is aggregated into the 3-entry decision vector and the
counter of its argmax is returned. -/
def computer_move (rand : Fin 3) (M : Matrix9) (last_move_outcome : States) : Fin 3 :=
  match last_move_outcome with
  | .EM => rand
  | .mk i =>
    let v := M i
    counter_plays (argmax3 (v 0 + v 3 + v 6) (v 1 + v 4 + v 7) (v 2 + v 5 + v 8))

/-- `decide_round_result` of the source: `some 0` tie, `some 1` player win,
`some (-1)` player loss; `none` models the `KeyError` escaping from
`what_beats_what_dict[player_choice]`. The equality test runs before the
dict lookup, exactly as in the source. -/
def decide_round_result (player_choice computer_choice : Int) : Option Int :=
  if player_choice = computer_choice then some 0
  else
    match what_beats_what_dict player_choice with
    | none => none
    | some b => if b = computer_choice then some 1 else some (-1)

/-- `States(player_choice + offset)` of the source: win keeps the move
index, loss adds 3, anything else (tie) adds 6. -/
def current_state (player_choice : Fin 3) (round_result : Int) : Fin 9 :=
  if round_result = 1 then ⟨player_choice.val, by have h := player_choice.isLt; omega⟩
  else if round_result = -1 then ⟨player_choice.val + 3, by have h := player_choice.isLt; omega⟩
  else ⟨player_choice.val + 6, by have h := player_choice.isLt; omega⟩

/-- The matrix mutation inside `update_probabilities`: if the observed cell
of the previous state's row is at most `upper_limit` and the row minimum is
at least `bottom_limit`, subtract `decrease_value` from all nine row cells
and add `increase_value` to the observed cell; otherwise leave the matrix
unchanged. -/
def reinforce (M : Matrix9) (prev obs : Fin 9) : Matrix9 :=
  if M prev obs ≤ upper_limit ∧ (∀ j, bottom_limit ≤ M prev j) then
    fun r c =>
      if r = prev then M r c - decrease_value + (if c = obs then increase_value else 0)
      else M r c
  else M

/-- `update_probabilities` of the source: computes the new history state
from the player's move and the round result, applies the guarded row update
when the previous state is concrete, and returns the new state (the matrix
is threaded explicitly instead of being module-level mutable state). -/
def update_probabilities (player_choice : Fin 3) (round_result : Int)
    (last_move_outcome : States) (M : Matrix9) : States × Matrix9 :=
  let cur := current_state player_choice round_result
  match last_move_outcome with
  | .EM => (States.mk cur, M)
  | .mk i => (States.mk cur, reinforce M i cur)

/-- Matrices reachable from the initial matrix by finite sequences of
reinforcement updates with arbitrary concrete previous/observed states. -/
inductive Reachable : Matrix9 → Prop where
  | init : Reachable transition_matrix
  | step (M : Matrix9) (p o : Fin 9) : Reachable M → Reachable (reinforce M p o)

/-- Spec-side bucket: the sum of the three row weights whose column state
has move-component `m` (column `j` encodes move `j % 3`). -/
def bucket_spec (M : Matrix9) (i : Fin 9) (m : Fin 3) : ℚ :=
  ∑ j : Fin 9, if j.val % 3 = m.val then M i j else 0

/-- Spec-side predicted move: argmax over the three buckets with ties
resolved to the lowest move index. -/
def predicted_spec (M : Matrix9) (i : Fin 9) : Fin 3 :=
  if bucket_spec M i 1 ≤ bucket_spec M i 0 ∧ bucket_spec M i 2 ≤ bucket_spec M i 0 then 0
  else if bucket_spec M i 2 ≤ bucket_spec M i 1 then 1 else 2

/-- C5 counterexample: the initial matrix cell (0,0) holds 0.11, which is
not 1/9, refuting "every cell equal to 1/9". -/
theorem transition_matrix_cell_ne_ninth :
    transition_matrix 0 0 = 11/100 ∧ transition_matrix 0 0 ≠ 1/9 := by
  constructor
  · rfl
  · show (11/100 : ℚ) ≠ 1/9
    norm_num

/-- C5 (amended): the weight matrix is initialized uniformly with every
cell equal to 0.11 (= 11/100, approximately but not exactly 1/9). -/
theorem transition_matrix_uniform :
    ∀ r c : Fin 9, transition_matrix r c = 11/100 := fun _ _ => rfl

/-- C7: over the 3-move domain, `decide_round_result(m, m)` is a tie; for
distinct moves it yields a player win exactly when the swapped call yields
a player loss, and exactly when the beats-relation of
`what_beats_what_dict` says the player's move beats the computer's. -/
theorem decide_round_result_props :
    (∀ m : Fin 3, decide_round_result m.val m.val = some 0)
    ∧ (∀ a b : Fin 3, a ≠ b →
        (decide_round_result a.val b.val = some 1 ↔
          decide_round_result b.val a.val = some (-1)))
    ∧ (∀ a b : Fin 3, a ≠ b →
        (decide_round_result a.val b.val = some 1 ↔
          what_beats_what_dict a.val = some b.val)) := by
  refine ⟨?_, ?_, ?_⟩ <;> decide

/-- Witness for C7: instantiated at the concrete pair paper (1) vs rock
(0): paper wins exactly as rock-versus-paper loses. -/
theorem decide_round_result_props_witness :
    decide_round_result (1 : Fin 3).val (0 : Fin 3).val = some 1 ↔
      decide_round_result (0 : Fin 3).val (1 : Fin 3).val = some (-1) :=
  decide_round_result_props.2.1 1 0 (by decide)

/-- C8 counterexample: the out-of-domain move 5 played against itself is
not rejected: `decide_round_result` silently returns a tie (`some 0`)
instead of aborting, because the equality test precedes the dict lookup. -/
theorem decide_round_result_silent_out_of_domain :
    ¬ ((5 : Int) = 0 ∨ (5 : Int) = 1 ∨ (5 : Int) = 2)
    ∧ decide_round_result 5 5 = some 0 := by
  constructor
  · decide
  · rfl

/-- C8 (amended): `decide_round_result` aborts with a lookup error
(`none`, the KeyError) exactly when the player's move is outside the
3-value domain AND differs from the computer's move; in every other case
— including an out-of-domain move equal to the computer's move, and an
out-of-domain computer move against a valid player move — it silently
returns a round outcome. -/
theorem decide_round_result_error_iff (p c : Int) :
    (decide_round_result p c = none ↔ p ≠ c ∧ what_beats_what_dict p = none)
    ∧ (what_beats_what_dict p = none ↔ ¬ (p = 0 ∨ p = 1 ∨ p = 2)) := by
  constructor
  · unfold decide_round_result
    rcases eq_or_ne p c with hpc | hpc
    · simp [hpc]
    · rcases hw : what_beats_what_dict p with _ | b
      · simp [hpc, hw]
      · simp only [if_neg hpc, hw]
        constructor
        · intro h
          split at h <;> simp_all
        · rintro ⟨-, h⟩
          exact absurd h (by simp)
  · unfold what_beats_what_dict
    split_ifs with h0 h1 h2 <;> simp_all

/-- C9: the computer's move on a concrete previous state depends only on
that state's row of the matrix: two matrices agreeing on row `i` (and the
random draw, unused on concrete states) give the same move. -/
theorem computer_move_reads_only_row (M1 M2 : Matrix9) (i : Fin 9)
    (r1 r2 : Fin 3) (h : ∀ j, M1 i j = M2 i j) :
    computer_move r1 M1 (States.mk i) = computer_move r2 M2 (States.mk i) := by
  simp only [computer_move, h]

/-- Witness for C9: the two rows of the initial matrix trivially agree, so
the decision agrees. -/
theorem computer_move_reads_only_row_witness :
    computer_move 0 transition_matrix (States.mk 0)
      = computer_move 2 transition_matrix (States.mk 0) :=
  computer_move_reads_only_row transition_matrix transition_matrix 0 0 2
    (fun _ => rfl)

/-- C10: the state returned by `update_probabilities` is determined by the
player's move and the round result alone: it is the same for any previous
state and any matrix, it always equals the concrete state
`current_state`, it is never `EM`, and win/loss/tie map the move index `m`
to `m`, `m+3`, `m+6` respectively. -/
theorem update_state_determined (p : Fin 3) (rr : Int)
    (l1 l2 : States) (M1 M2 : Matrix9) :
    (update_probabilities p rr l1 M1).1 = (update_probabilities p rr l2 M2).1
    ∧ (update_probabilities p rr l1 M1).1 = States.mk (current_state p rr)
    ∧ (update_probabilities p rr l1 M1).1 ≠ States.EM
    ∧ (rr = 1 → (current_state p rr).val = p.val)
    ∧ (rr = -1 → (current_state p rr).val = p.val + 3)
    ∧ (rr = 0 → (current_state p rr).val = p.val + 6) := by
  refine ⟨?_, ?_, ?_, ?_, ?_, ?_⟩
  · cases l1 <;> cases l2 <;> rfl
  · cases l1 <;> rfl
  · cases l1 <;> simp [update_probabilities]
  · intro h; simp [current_state, h]
  · intro h; simp [current_state, h]
  · intro h; simp [current_state, h]

/-- Witness for C10: at move paper (1) with a tie (0), previous states
`EM` and `VR`, the returned state is `TP` (index 7) in both cases. -/
theorem update_state_determined_witness :
    (update_probabilities 1 0 States.EM transition_matrix).1
      = (update_probabilities 1 0 (States.mk 0) transition_matrix).1
    ∧ ((0 : Int) = 0 → (current_state 1 0).val = (1 : Fin 3).val + 6) :=
  ⟨(update_state_determined 1 0 States.EM (States.mk 0) transition_matrix
      transition_matrix).1,
   (update_state_determined 1 0 States.EM (States.mk 0) transition_matrix
      transition_matrix).2.2.2.2.2⟩

/-- When the guard passes, `reinforce` rewrites the whole matrix by the
row formula. -/
lemma reinforce_of_guard (M : Matrix9) (p o : Fin 9)
    (h1 : M p o ≤ upper_limit) (h2 : ∀ j, bottom_limit ≤ M p j) :
    reinforce M p o = fun r c =>
      if r = p then M r c - decrease_value + (if c = o then increase_value else 0)
      else M r c := by
  unfold reinforce
  exact if_pos ⟨h1, h2⟩

/-- When the guard fails, `reinforce` is the identity. -/
lemma reinforce_of_not_guard (M : Matrix9) (p o : Fin 9)
    (h : ¬ (M p o ≤ upper_limit ∧ ∀ j, bottom_limit ≤ M p j)) :
    reinforce M p o = M := by
  unfold reinforce
  exact if_neg h

/-- C1: when the guard passes (observed cell at most `upper_limit`, all
nine row entries at least `bottom_limit`), the observed cell of the
previous state's row gains exactly `increase_value - decrease_value` and
every other cell of that row loses exactly `decrease_value`. -/
theorem reinforce_guard_pass_effect (M : Matrix9) (p o : Fin 9)
    (h1 : M p o ≤ upper_limit) (h2 : ∀ j, bottom_limit ≤ M p j) :
    reinforce M p o p o = M p o + (increase_value - decrease_value)
    ∧ ∀ c : Fin 9, c ≠ o → reinforce M p o p c = M p c - decrease_value := by
  rw [reinforce_of_guard M p o h1 h2]
  constructor
  · simp only [if_pos rfl, if_true]
    ring
  · intro c hc
    simp [hc]

/-- Witness for C1: from the initial matrix, reinforcing row 0 toward
column 0 raises that cell from 0.11 to 0.2 and drops cell (0,1) to 0.1. -/
theorem reinforce_guard_pass_effect_witness :
    reinforce transition_matrix 0 0 0 0
        = transition_matrix 0 0 + (increase_value - decrease_value)
    ∧ reinforce transition_matrix 0 0 0 1 = transition_matrix 0 1 - decrease_value := by
  have h := reinforce_guard_pass_effect transition_matrix 0 0
    (by show (11/100 : ℚ) ≤ upper_limit; norm_num [upper_limit, increase_value, decrease_value])
    (fun j => by show bottom_limit ≤ (11/100 : ℚ); norm_num [bottom_limit, decrease_value])
  exact ⟨h.1, h.2 1 (by decide)⟩

/-- C6: the matrix is left entirely unchanged when the previous state is
`EM`, and also when the previous state is concrete but the guard fails
(one offending cell — an observed cell above `upper_limit` or any row
entry below `bottom_limit` — suppresses the whole row's update). -/
theorem update_probabilities_frame (M : Matrix9) (p : Fin 3) (rr : Int) (i : Fin 9)
    (h : ¬ (M i (current_state p rr) ≤ upper_limit ∧ ∀ j, bottom_limit ≤ M i j)) :
    (update_probabilities p rr (States.mk i) M).2 = M
    ∧ ∀ p' : Fin 3, ∀ rr' : Int, (update_probabilities p' rr' States.EM M).2 = M := by
  constructor
  · show reinforce M i (current_state p rr) = M
    exact reinforce_of_not_guard M i (current_state p rr) h
  · intro p' rr'
    rfl

/-- Witness for C6: on a matrix whose every cell is 0.95 the guard fails
(0.95 exceeds `upper_limit` = 0.91), so the update is a no-op; the `EM`
case is a no-op as well. -/
theorem update_probabilities_frame_witness :
    (update_probabilities 0 1 (States.mk 0) (fun _ _ => 95/100)).2 = (fun _ _ => 95/100)
    ∧ ∀ p' : Fin 3, ∀ rr' : Int,
        (update_probabilities p' rr' States.EM (fun _ _ => (95/100 : ℚ))).2
          = (fun _ _ => 95/100) :=
  update_probabilities_frame (fun _ _ => 95/100) 0 1 0
    (by
      rintro ⟨h1, -⟩
      rw [show current_state 0 1 = 0 from rfl] at h1
      revert h1
      show ¬ ((95/100 : ℚ) ≤ upper_limit)
      norm_num [upper_limit, increase_value, decrease_value])

/-- Every cell of every reachable matrix lies in [0, 1] (shared invariant
helper, proved by induction on the reinforcement sequence). -/
lemma reachable_cells_in_unit (M : Matrix9) (h : Reachable M) :
    ∀ r c : Fin 9, 0 ≤ M r c ∧ M r c ≤ 1 := by
  induction h with
  | init =>
    intro r c
    constructor <;> norm_num [transition_matrix]
  | step N p o hN ih =>
    intro r c
    by_cases hg : N p o ≤ upper_limit ∧ ∀ j, bottom_limit ≤ N p j
    · rw [reinforce_of_guard N p o hg.1 hg.2]
      have hul : upper_limit = 91/100 := by
        norm_num [upper_limit, increase_value, decrease_value]
      have hbl : bottom_limit = 1/100 := by norm_num [bottom_limit, decrease_value]
      have hdv : decrease_value = 1/100 := rfl
      have hiv : increase_value = 1/10 := rfl
      simp only
      split_ifs with hr hc
      · subst hr
        subst hc
        exact ⟨by linarith [(ih r c).1], by linarith [hg.1]⟩
      · subst hr
        exact ⟨by linarith [hg.2 c], by linarith [(ih r c).2]⟩
      · exact ih r c
    · rw [reinforce_of_not_guard N p o hg]
      exact ih r c

/-- C3: every cell of every matrix reachable from the initial matrix by a
finite sequence of reinforcement updates lies within [0, 1]. -/
theorem reachable_matrix_cells_in_unit_interval (M : Matrix9) (h : Reachable M)
    (r c : Fin 9) : 0 ≤ M r c ∧ M r c ≤ 1 :=
  reachable_cells_in_unit M h r c

/-- Witness for C3: the initial matrix is reachable and its cell (0,0)
lies in [0, 1]. -/
theorem reachable_matrix_cells_in_unit_interval_witness :
    0 ≤ transition_matrix 0 0 ∧ transition_matrix 0 0 ≤ 1 :=
  reachable_matrix_cells_in_unit_interval transition_matrix Reachable.init 0 0

/-- Matrix equal to the initial one except that row 0 is `v` (used to
exhibit a concrete reachable matrix). -/
def ceMat (v : Fin 9 → ℚ) : Matrix9 := fun r c => if r = 0 then v c else 11/100

def ceRow1 : Fin 9 → ℚ := fun c => if c.val < 1 then 20/100 else 10/100

def ceRow2 : Fin 9 → ℚ := fun c => if c.val < 2 then 19/100 else 9/100

def ceRow3 : Fin 9 → ℚ := fun c => if c.val < 3 then 18/100 else 8/100

def ceRow4 : Fin 9 → ℚ := fun c => if c.val < 4 then 17/100 else 7/100

def ceRow5 : Fin 9 → ℚ := fun c => if c.val < 5 then 16/100 else 6/100

def ceRow6 : Fin 9 → ℚ := fun c => if c.val < 6 then 15/100 else 5/100

def ceRow7 : Fin 9 → ℚ := fun c => if c.val < 7 then 14/100 else 4/100

def ceRow8 : Fin 9 → ℚ := fun c => if c.val < 8 then 13/100 else 3/100

def ceRow9 : Fin 9 → ℚ :=
  fun c => if c.val = 0 then 22/100 else if c.val = 8 then 2/100 else 12/100

def ceRow10 : Fin 9 → ℚ :=
  fun c => if c.val < 2 then 21/100 else if c.val = 8 then 1/100 else 11/100

def ceRow11 : Fin 9 → ℚ :=
  fun c => if c.val < 3 then 20/100 else if c.val = 8 then 0 else 10/100

lemma ceStep1 : reinforce transition_matrix 0 0 = ceMat ceRow1 := by
  rw [reinforce_of_guard _ _ _
      (by norm_num [transition_matrix, upper_limit, increase_value, decrease_value])
      (fun j => by norm_num [transition_matrix, bottom_limit, decrease_value])]
  funext r c
  by_cases hr : r = 0
  · subst hr
    fin_cases c <;>
      norm_num [ceMat, ceRow1, transition_matrix, decrease_value, increase_value, Fin.ext_iff, Fin.val_natCast]
  · simp [ceMat, hr, transition_matrix]

lemma ceStep2 : reinforce (ceMat ceRow1) 0 1 = ceMat ceRow2 := by
  rw [reinforce_of_guard _ _ _
      (by norm_num [ceMat, ceRow1, upper_limit, increase_value, decrease_value, Fin.ext_iff, Fin.val_natCast])
      (fun j => by fin_cases j <;>
        norm_num [ceMat, ceRow1, bottom_limit, decrease_value, Fin.ext_iff, Fin.val_natCast])]
  funext r c
  by_cases hr : r = 0
  · subst hr
    fin_cases c <;>
      norm_num [ceMat, ceRow1, ceRow2, decrease_value, increase_value, Fin.ext_iff, Fin.val_natCast]
  · simp [ceMat, hr]

lemma ceStep3 : reinforce (ceMat ceRow2) 0 2 = ceMat ceRow3 := by
  rw [reinforce_of_guard _ _ _
      (by norm_num [ceMat, ceRow2, upper_limit, increase_value, decrease_value, Fin.ext_iff, Fin.val_natCast])
      (fun j => by fin_cases j <;>
        norm_num [ceMat, ceRow2, bottom_limit, decrease_value, Fin.ext_iff, Fin.val_natCast])]
  funext r c
  by_cases hr : r = 0
  · subst hr
    fin_cases c <;>
      norm_num [ceMat, ceRow2, ceRow3, decrease_value, increase_value, Fin.ext_iff, Fin.val_natCast]
  · simp [ceMat, hr]

lemma ceStep4 : reinforce (ceMat ceRow3) 0 ⟨3, by omega⟩ = ceMat ceRow4 := by
  rw [reinforce_of_guard _ _ _
      (by norm_num [ceMat, ceRow3, upper_limit, increase_value, decrease_value, Fin.ext_iff, Fin.val_natCast])
      (fun j => by fin_cases j <;>
        norm_num [ceMat, ceRow3, bottom_limit, decrease_value, Fin.ext_iff, Fin.val_natCast])]
  funext r c
  by_cases hr : r = 0
  · subst hr
    fin_cases c <;>
      norm_num [ceMat, ceRow3, ceRow4, decrease_value, increase_value, Fin.ext_iff, Fin.val_natCast]
  · simp [ceMat, hr]

lemma ceStep5 : reinforce (ceMat ceRow4) 0 ⟨4, by omega⟩ = ceMat ceRow5 := by
  rw [reinforce_of_guard _ _ _
      (by norm_num [ceMat, ceRow4, upper_limit, increase_value, decrease_value, Fin.ext_iff, Fin.val_natCast])
      (fun j => by fin_cases j <;>
        norm_num [ceMat, ceRow4, bottom_limit, decrease_value, Fin.ext_iff, Fin.val_natCast])]
  funext r c
  by_cases hr : r = 0
  · subst hr
    fin_cases c <;>
      norm_num [ceMat, ceRow4, ceRow5, decrease_value, increase_value, Fin.ext_iff, Fin.val_natCast]
  · simp [ceMat, hr]

lemma ceStep6 : reinforce (ceMat ceRow5) 0 ⟨5, by omega⟩ = ceMat ceRow6 := by
  rw [reinforce_of_guard _ _ _
      (by norm_num [ceMat, ceRow5, upper_limit, increase_value, decrease_value, Fin.ext_iff, Fin.val_natCast])
      (fun j => by fin_cases j <;>
        norm_num [ceMat, ceRow5, bottom_limit, decrease_value, Fin.ext_iff, Fin.val_natCast])]
  funext r c
  by_cases hr : r = 0
  · subst hr
    fin_cases c <;>
      norm_num [ceMat, ceRow5, ceRow6, decrease_value, increase_value, Fin.ext_iff, Fin.val_natCast]
  · simp [ceMat, hr]

lemma ceStep7 : reinforce (ceMat ceRow6) 0 ⟨6, by omega⟩ = ceMat ceRow7 := by
  rw [reinforce_of_guard _ _ _
      (by norm_num [ceMat, ceRow6, upper_limit, increase_value, decrease_value, Fin.ext_iff, Fin.val_natCast])
      (fun j => by fin_cases j <;>
        norm_num [ceMat, ceRow6, bottom_limit, decrease_value, Fin.ext_iff, Fin.val_natCast])]
  funext r c
  by_cases hr : r = 0
  · subst hr
    fin_cases c <;>
      norm_num [ceMat, ceRow6, ceRow7, decrease_value, increase_value, Fin.ext_iff, Fin.val_natCast]
  · simp [ceMat, hr]

lemma ceStep8 : reinforce (ceMat ceRow7) 0 ⟨7, by omega⟩ = ceMat ceRow8 := by
  rw [reinforce_of_guard _ _ _
      (by norm_num [ceMat, ceRow7, upper_limit, increase_value, decrease_value, Fin.ext_iff, Fin.val_natCast])
      (fun j => by fin_cases j <;>
        norm_num [ceMat, ceRow7, bottom_limit, decrease_value, Fin.ext_iff, Fin.val_natCast])]
  funext r c
  by_cases hr : r = 0
  · subst hr
    fin_cases c <;>
      norm_num [ceMat, ceRow7, ceRow8, decrease_value, increase_value, Fin.ext_iff, Fin.val_natCast]
  · simp [ceMat, hr]

lemma ceStep9 : reinforce (ceMat ceRow8) 0 0 = ceMat ceRow9 := by
  rw [reinforce_of_guard _ _ _
      (by norm_num [ceMat, ceRow8, upper_limit, increase_value, decrease_value, Fin.ext_iff, Fin.val_natCast])
      (fun j => by fin_cases j <;>
        norm_num [ceMat, ceRow8, bottom_limit, decrease_value, Fin.ext_iff, Fin.val_natCast])]
  funext r c
  by_cases hr : r = 0
  · subst hr
    fin_cases c <;>
      norm_num [ceMat, ceRow8, ceRow9, decrease_value, increase_value, Fin.ext_iff, Fin.val_natCast]
  · simp [ceMat, hr]

lemma ceStep10 : reinforce (ceMat ceRow9) 0 1 = ceMat ceRow10 := by
  rw [reinforce_of_guard _ _ _
      (by norm_num [ceMat, ceRow9, upper_limit, increase_value, decrease_value, Fin.ext_iff, Fin.val_natCast])
      (fun j => by fin_cases j <;>
        norm_num [ceMat, ceRow9, bottom_limit, decrease_value, Fin.ext_iff, Fin.val_natCast])]
  funext r c
  by_cases hr : r = 0
  · subst hr
    fin_cases c <;>
      norm_num [ceMat, ceRow9, ceRow10, decrease_value, increase_value, Fin.ext_iff, Fin.val_natCast]
  · simp [ceMat, hr]

lemma ceStep11 : reinforce (ceMat ceRow10) 0 2 = ceMat ceRow11 := by
  rw [reinforce_of_guard _ _ _
      (by norm_num [ceMat, ceRow10, upper_limit, increase_value, decrease_value, Fin.ext_iff, Fin.val_natCast])
      (fun j => by fin_cases j <;>
        norm_num [ceMat, ceRow10, bottom_limit, decrease_value, Fin.ext_iff, Fin.val_natCast])]
  funext r c
  by_cases hr : r = 0
  · subst hr
    fin_cases c <;>
      norm_num [ceMat, ceRow10, ceRow11, decrease_value, increase_value, Fin.ext_iff, Fin.val_natCast]
  · simp [ceMat, hr]

/-- The matrix after the explicit 11-step reinforcement sequence on row 0
is reachable. -/
lemma ceReach : Reachable (ceMat ceRow11) := by
  rw [← ceStep11]
  refine Reachable.step _ _ _ ?_
  rw [← ceStep10]
  refine Reachable.step _ _ _ ?_
  rw [← ceStep9]
  refine Reachable.step _ _ _ ?_
  rw [← ceStep8]
  refine Reachable.step _ _ _ ?_
  rw [← ceStep7]
  refine Reachable.step _ _ _ ?_
  rw [← ceStep6]
  refine Reachable.step _ _ _ ?_
  rw [← ceStep5]
  refine Reachable.step _ _ _ ?_
  rw [← ceStep4]
  refine Reachable.step _ _ _ ?_
  rw [← ceStep3]
  refine Reachable.step _ _ _ ?_
  rw [← ceStep2]
  refine Reachable.step _ _ _ ?_
  rw [← ceStep1]
  exact Reachable.step _ _ _ Reachable.init

/-- C4 counterexample: after 11 reinforcement updates of row 0 (observed
columns 0,1,2,3,4,5,6,7,0,1,2, every guard passing), cell (0,8) of the
reachable matrix holds 0, strictly below `bottom_limit` = 0.01. -/
theorem reachable_cell_below_bottom_limit :
    Reachable (ceMat ceRow11) ∧ ceMat ceRow11 0 ⟨8, by omega⟩ < bottom_limit := by
  refine ⟨ceReach, ?_⟩
  norm_num [ceMat, ceRow11, bottom_limit, decrease_value, Fin.ext_iff, Fin.val_natCast]

/-- C4 (amended): after every reinforce update, every cell of every
reachable matrix remains within [`bottom_limit` - `decrease_value`, 1],
i.e. within [0, 1]: a cell sitting exactly at `bottom_limit` may still be
decremented once, to `bottom_limit` - `decrease_value` = 0, after which
the row's updates stop. -/
theorem reachable_cells_lower_bound (M : Matrix9) (h : Reachable M) (r c : Fin 9) :
    bottom_limit - decrease_value ≤ M r c ∧ M r c ≤ 1 := by
  have hb : bottom_limit - decrease_value = 0 := by
    norm_num [bottom_limit, decrease_value]
  rw [hb]
  exact reachable_cells_in_unit M h r c

/-- Witness for C4 (amended): the initial matrix is reachable and its cell
(1,1) obeys the bounds. -/
theorem reachable_cells_lower_bound_witness :
    bottom_limit - decrease_value ≤ transition_matrix 1 1 ∧ transition_matrix 1 1 ≤ 1 :=
  reachable_cells_lower_bound transition_matrix Reachable.init 1 1

lemma bucket_spec_zero (M : Matrix9) (i : Fin 9) :
    bucket_spec M i 0 = M i 0 + M i 3 + M i 6 := by
  simp [bucket_spec, Fin.sum_univ_succ]
  rw [show (Fin.succ 2 : Fin 9) = 3 from rfl,
    show (((Fin.succ 2).succ.succ.succ : Fin 9)) = 6 from rfl]
  ring

lemma bucket_spec_one (M : Matrix9) (i : Fin 9) :
    bucket_spec M i 1 = M i 1 + M i 4 + M i 7 := by
  simp [bucket_spec, Fin.sum_univ_succ]
  rw [show ((Fin.succ 2).succ : Fin 9) = 4 from rfl,
    show (((Fin.succ 2).succ.succ.succ.succ : Fin 9)) = 7 from rfl]
  ring

lemma bucket_spec_two (M : Matrix9) (i : Fin 9) :
    bucket_spec M i 2 = M i 2 + M i 5 + M i 8 := by
  simp [bucket_spec, Fin.sum_univ_succ]
  rw [show ((Fin.succ 2).succ.succ : Fin 9) = 5 from rfl,
    show (((Fin.succ 2).succ.succ.succ.succ.succ : Fin 9)) = 8 from rfl]
  ring

/-- `numpy.argmax` (first maximal index) agrees with the spec's
argmax-with-lowest-index-tie-break. -/
lemma argmax3_eq_spec (a b c : ℚ) :
    argmax3 a b c = if b ≤ a ∧ c ≤ a then (0 : Fin 3) else if c ≤ b then 1 else 2 := by
  unfold argmax3
  rcases lt_or_le a b with hab | hab
  · rcases lt_or_le b c with hbc | hbc
    · rw [if_pos hab, if_pos hbc, if_neg (fun h => absurd h.1 (not_le.mpr hab)),
        if_neg (not_le.mpr hbc)]
    · rw [if_pos hab, if_neg (not_lt.mpr hbc),
        if_neg (fun h => absurd h.1 (not_le.mpr hab)), if_pos hbc]
  · rcases lt_or_le a c with hac | hac
    · rw [if_neg (not_lt.mpr hab), if_pos hac,
        if_neg (fun h => absurd h.2 (not_le.mpr hac)),
        if_neg (not_le.mpr (lt_of_le_of_lt hab hac))]
    · rw [if_neg (not_lt.mpr hab), if_neg (not_lt.mpr hac), if_pos ⟨hab, hac⟩]

/-- C2: on a concrete previous state the decision rule returns the counter
of the spec-side predicted move (buckets by move-component, argmax with the
lowest-index tie-break); the returned move beats the predicted move under
`what_beats_what_dict`; and on a row with all three bucket sums equal it
returns paper (1). -/
theorem computer_move_spec (M : Matrix9) (i : Fin 9) (rand : Fin 3) :
    computer_move rand M (States.mk i) = counter_plays (predicted_spec M i)
    ∧ what_beats_what_dict ((computer_move rand M (States.mk i)).val : Int)
        = some ((predicted_spec M i).val : Int)
    ∧ (bucket_spec M i 0 = bucket_spec M i 1 ∧ bucket_spec M i 1 = bucket_spec M i 2 →
        computer_move rand M (States.mk i) = 1) := by
  have hpred : predicted_spec M i =
      argmax3 (M i 0 + M i 3 + M i 6) (M i 1 + M i 4 + M i 7) (M i 2 + M i 5 + M i 8) := by
    unfold predicted_spec
    rw [bucket_spec_zero, bucket_spec_one, bucket_spec_two]
    exact (argmax3_eq_spec _ _ _).symm
  have hmain : computer_move rand M (States.mk i) = counter_plays (predicted_spec M i) := by
    rw [hpred]
    rfl
  have hbeats : ∀ m : Fin 3,
      what_beats_what_dict ((counter_plays m).val : Int) = some (m.val : Int) := by decide
  refine ⟨hmain, ?_, ?_⟩
  · rw [hmain]
    exact hbeats (predicted_spec M i)
  · rintro ⟨h01, h12⟩
    rw [hmain]
    unfold predicted_spec
    rw [if_pos ⟨le_of_eq h01.symm, le_of_eq (h01.trans h12).symm⟩]
    rfl

/-- Witness for C2: on the uniform initial matrix the three bucket sums of
row 0 are equal, so the computer deterministically answers paper (1). -/
theorem computer_move_spec_witness :
    computer_move 0 transition_matrix (States.mk 0) = 1 :=
  (computer_move_spec transition_matrix 0 0).2.2
    ⟨by rw [bucket_spec_zero, bucket_spec_one]; norm_num [transition_matrix],
     by rw [bucket_spec_one, bucket_spec_two]; norm_num [transition_matrix]⟩

end RPS
